import Mathlib

/-!
Verification of the conversation/session orchestration layer of the
`go-service-communicator` Slack bot, as a shallow embedding in Lean 4.

The embedding follows the Go sources:
  - `internal/handlers/slack_event_handler.go` (rolling DM history, dispatch),
  - `internal/handlers/slash_command_handler.go` (slash-command contract),
  - `internal/agent/agent.go` (Processor: intent routing, prompt assembly,
    summary fan-out, mention search, summary-context store),
  - `internal/services/slack/slack.go` (channel-list pagination).

Strings are Lean `String`s; Go `strings.Contains` becomes a decidable
list-infix test on the underlying character lists, and `strings.ToLower`
becomes a character-wise lowering (the texts involved are ASCII).  The
summary-context map becomes a function `String → Option SummaryContext`;
the per-user history is explicit list state.  External collaborators (the
Gemini generation call, the Slack Web API) are oracles in an environment
record; each modelled operation additionally records the list of prompts
sent to the generation client, so that "the Generation Client is not
called" is expressible as that list being empty.  Brace and apostrophe
characters inside the verbatim Go prompt strings are written with
hexadecimal escapes.
-/

namespace GoComm

/-- Go `strings.Contains(hay, pat)`: `pat` occurs as a contiguous substring
of `hay`.  Modelled as list-infix on the character data. -/
def containsSub (hay pat : String) : Bool :=
  decide (pat.data <:+: hay.data)

/-- Go `strings.ToLower` (character-wise; the classified texts are ASCII). -/
def lowerStr (s : String) : String :=
  ⟨s.data.map Char.toLower⟩

/-- Concatenation of a list of string pieces, in order: the semantics of a
Go `strings.Builder` receiving one `WriteString` per piece. -/
def concatAll (pieces : List String) : String :=
  ⟨(pieces.map String.data).flatten⟩

/-! ### Rolling direct-message history (`slack_event_handler.go`)

`const maxHistory = 10`; on each DM turn the handler appends
`"User: "+text` and `"Assistant: "+response` and then truncates to the
last `maxHistory` entries (`history = history[len(history)-maxHistory:]`). -/

def maxHistory : Nat := 10

/-- One DM-turn update of a user's `conversationHistory` entry, exactly as
in `HandleEvent` (append the user line, append the assistant line, then
truncate from the front when the bound is exceeded). -/
def updateHistory (history : List String) (userText response : String) : List String :=
  let h := (history ++ ["User: " ++ userText]) ++ ["Assistant: " ++ response]
  if h.length > maxHistory then h.drop (h.length - maxHistory) else h

/-- The full, untruncated transcript of a sequence of DM turns
`(userText, response)`, in call order. -/
def turnLines (turns : List (String × String)) : List String :=
  turns.flatMap (fun t => ["User: " ++ t.1, "Assistant: " ++ t.2])

/-- The stored history after processing a sequence of DM turns starting
from an empty history (a fresh user). -/
def runTurns (turns : List (String × String)) : List String :=
  turns.foldl (fun h t => updateHistory h t.1 t.2) []

/-! ### Unsynchronized concurrent history updates

`HandleEvent` runs each DM turn in a spawned goroutine and mutates the
shared `conversationHistory` map with no mutex.  Each turn is therefore a
read-modify-write on the user's entry: read the slice, compute the
appended/truncated slice, write it back.  The interleaving of two such
turns is modelled as a two-task state machine driven by a schedule. -/

inductive TaskPhase where
  | toRead : TaskPhase
  | toWrite : List String → TaskPhase
  | finished : TaskPhase
deriving DecidableEq

structure RaceState where
  shared : List String
  p1 : TaskPhase
  p2 : TaskPhase
deriving DecidableEq

/-- One step of a single DM-turn task: first it reads the shared history
entry (taking a snapshot), then it writes back the updated history
computed from its snapshot. -/
def stepPhase (turn : String × String) (shared : List String) :
    TaskPhase → Option (List String × TaskPhase)
  | .toRead => some (shared, .toWrite shared)
  | .toWrite snapshot => some (updateHistory snapshot turn.1 turn.2, .finished)
  | .finished => none

/-- Scheduler step: `true` steps task 1, `false` steps task 2. -/
def raceStep (t1 t2 : String × String) (st : RaceState) (choice : Bool) : RaceState :=
  if choice then
    match stepPhase t1 st.shared st.p1 with
    | some (sh, ph) => ⟨sh, ph, st.p2⟩
    | none => st
  else
    match stepPhase t2 st.shared st.p2 with
    | some (sh, ph) => ⟨sh, st.p1, ph⟩
    | none => st

/-- Run two concurrent DM-turn tasks for the same user from initial
history `h0` under a given schedule. -/
def raceRun (t1 t2 : String × String) (h0 : List String) (sched : List Bool) : RaceState :=
  sched.foldl (raceStep t1 t2) ⟨h0, .toRead, .toRead⟩

/-! ### The Processor (`internal/agent/agent.go`) -/

/-- `SummaryContext` from `agent.go`: the last summary generated for a
user, plus the channel it was for. -/
structure SummaryContext where
  summary : String
  channelID : String
deriving DecidableEq

/-- The `lastSummary` map of the `Processor` (`map[string]SummaryContext`),
as a function from user ID to an optional context. -/
def SummaryStore : Type := String → Option SummaryContext

/-- `SetLastSummary`: store (overwrite) the most recent summary for a user. -/
def setLastSummary (store : SummaryStore) (userID channelID summary : String) :
    SummaryStore :=
  fun id => if id = userID then some ⟨summary, channelID⟩ else store id

/-- Go `delete(p.lastSummary, userID)`. -/
def deleteSummary (store : SummaryStore) (userID : String) : SummaryStore :=
  fun id => if id = userID then none else store id

/-- The conditional read-and-delete performed by `ProcessDM`: if a context
is present for the user it is deleted (so it is not used on the next
turn); otherwise the store is untouched. -/
def consumeSummary (store : SummaryStore) (userID : String) : SummaryStore :=
  match store userID with
  | some _ => deleteSummary store userID
  | none => store

/-- One match from `slack.SearchMessages` as consumed by
`findUserMentions`: the message text, the channel name and the author. -/
structure SearchMatch where
  text : String
  channelName : String
  user : String
deriving DecidableEq

/-- External collaborators of the Processor, as oracles:
`gen` is `llm.GenerateContent` (returns the text and an error flag; on
error the text is already a user-safe message), `publicChannels` is
`slackClient.GetPublicChannels()`, `chanHistory` is
`slackClient.GetConversationHistory(channel, start, end)` (times in
nanoseconds since the epoch, like `time.Time`/`time.Duration`), `search`
is `slackClient.SearchMessages` for the fixed query, and `now` is
`time.Now()`. -/
structure Env where
  gen : String → String × Bool
  publicChannels : Except String (List String)
  chanHistory : String → Int → Int → Except String (List String)
  search : Except String (List SearchMatch)
  now : Int

/-- Replace the generation oracle of an environment. -/
def envWithGen (e : Env) (g : String → String × Bool) : Env :=
  ⟨g, e.publicChannels, e.chanHistory, e.search, e.now⟩

/-- Result of one Processor operation: the reply text, the summary store
afterwards, and the prompts sent to the generation client (in order). -/
structure Outcome where
  reply : String
  store : SummaryStore
  genCalls : List String

/-- Go `strings.ReplaceAll` on character lists: replace every
non-overlapping occurrence of `pat` (nonempty here) left to right. -/
def replaceAllChars (pat rep : List Char) : List Char → List Char
  | [] => []
  | c :: rest =>
    if h : pat ≠ [] ∧ pat <+: (c :: rest) then
      rep ++ replaceAllChars pat rep ((c :: rest).drop pat.length)
    else
      c :: replaceAllChars pat rep rest
termination_by s => s.length
decreasing_by
  · have hp : 0 < pat.length := List.length_pos.mpr h.1
    simp only [List.length_drop, List.length_cons]
    omega
  · simp

/-- `highlightMentions` from `agent.go`: wrap every `<@userID>` tag in
bold markers. -/
def highlightMentions (text userID : String) : String :=
  ⟨replaceAllChars ("<@" ++ userID ++ ">").data ("*<@" ++ userID ++ ">*").data text.data⟩

/-- Go `strings.TrimPrefix`. -/
def trimPre (s pre : String) : String :=
  if pre.data <+: s.data then ⟨s.data.drop pre.data.length⟩ else s

/-- Go `strings.TrimSuffix`. -/
def trimSuf (s suf : String) : String :=
  if suf.data <:+ s.data then ⟨s.data.take (s.data.length - suf.data.length)⟩ else s

/-- Whitespace as trimmed by Go `strings.TrimSpace` (ASCII range). -/
def isSpaceGo (c : Char) : Bool :=
  c = ' ' || c = '\t' || c = '\n' || c = '\x0b' || c = '\x0c' || c = '\r'

/-- Go `strings.TrimSpace` (ASCII whitespace). -/
def trimSpace (s : String) : String :=
  ⟨(((s.data.dropWhile isSpaceGo).reverse.dropWhile isSpaceGo).reverse)⟩

/-- `cleanGeminiResponse` from `agent.go`: strip a leading ```json fence
marker, then a leading ``` marker, then a trailing ``` marker, then
surrounding whitespace. -/
def cleanGeminiResponse (response : String) : String :=
  trimSpace (trimSuf (trimPre (trimPre response "```json") "```") "```")

/-! #### Summary duration parsing (`performSummary`)

Go compiles `(\d+)\s*d` and takes `FindStringSubmatch`: the leftmost
occurrence of a digit run followed by optional whitespace and a literal
`d`; the captured digits give the day count.  Since `\s*` cannot consume
digits and a digit is never `d`, backtracking inside a digit run can
never succeed when the maximal run fails, so leftmost-first matching is
exactly: scan positions left to right; at each position take the maximal
digit run, skip the maximal whitespace run, and require a `d`. -/

/-- Whitespace of the RE2 `\s` class. -/
def isSpaceRE (c : Char) : Bool :=
  c = '\t' || c = '\n' || c = '\x0c' || c = '\r' || c = ' '

/-- `strconv.Atoi` on a digit run (the regex guarantees only digits). -/
def digitsToNat (ds : List Char) : Nat :=
  ds.foldl (fun n c => 10 * n + (c.toNat - 48)) 0

/-- Attempt to match `(\d+)\s*d` anchored at the head of `cs`, returning
the captured digit run. -/
def matchDaysAt (cs : List Char) : Option (List Char) :=
  let ds := cs.takeWhile Char.isDigit
  if ds = [] then none
  else
    match (cs.drop ds.length).dropWhile isSpaceRE with
    | d :: _ => if d = 'd' then some ds else none
    | [] => none

/-- Leftmost match of `(\d+)\s*d` in the text (the `FindStringSubmatch`
capture), scanning positions left to right. -/
def findDaysCapture : List Char → Option (List Char)
  | [] => none
  | c :: rest =>
    match matchDaysAt (c :: rest) with
    | some ds => some ds
    | none => findDaysCapture rest

/-- Nanoseconds per hour (`time.Hour`). -/
def nsPerHour : Nat := 3600000000000

/-- The largest value of Go's 64-bit `int` / `time.Duration`. -/
def int64Max : Nat := 9223372036854775807

/-- Reduce an integer to int64 two's-complement range: the value of a Go
`int64` computation that may have overflowed. -/
def wrap64 (n : Int) : Int :=
  (n + 2 ^ 63) % 2 ^ 64 - 2 ^ 63

/-- One Go `int64` (`time.Duration`) multiplication: the mathematical
product wrapped to int64 range. -/
def mulDur (a b : Int) : Int :=
  wrap64 (a * b)

/-- `strconv.Atoi` on a captured digit run: the exact value when it fits
in a 64-bit `int`, and a range error (`none`) otherwise. -/
def atoiDigits (ds : List Char) : Option Nat :=
  if digitsToNat ds ≤ int64Max then some (digitsToNat ds) else none

/-- The summary window duration chosen by `performSummary`, in
nanoseconds as a Go `time.Duration` (int64): when the `(\d+)\s*d` pattern
matches and `strconv.Atoi` succeeds (`err == nil`), the duration is
`time.Duration(days) * 24 * time.Hour` evaluated in wrapping int64
arithmetic; when the pattern is absent or the capture overflows `Atoi`,
the default `24 * time.Hour` is kept. -/
def durationNS (message : String) : Int :=
  match findDaysCapture message.data with
  | some ds =>
    match atoiDigits ds with
    | some days => mulDur (mulDur (days : Int) 24) (nsPerHour : Int)
    | none => 24 * (nsPerHour : Int)
  | none => 24 * (nsPerHour : Int)

/-! #### performSummary (`agent.go`) -/

def noMessagesReply : String :=
  "I couldn\x27t find any messages in the specified time period."

def channelListFailReply : String :=
  "Sorry, I couldn\x27t fetch the list of public channels."

def summaryGenFailReply : String :=
  "I was able to fetch the messages, but I encountered an error while generating the summary."

/-- The channels `performSummary` operates on: the explicitly scoped
channel when one was given, otherwise the bot's public-channel list. -/
def channelsFor (env : Env) (channelID : String) : Except String (List String) :=
  if channelID ≠ "" then .ok [channelID] else env.publicChannels

/-- The per-channel fetch loop of `performSummary`: fetch each channel's
history in the window; on a fetch error skip that channel and continue;
highlight the user's own mentions in every fetched message. -/
def gatherMessages (env : Env) (userID : String) (channels : List String)
    (startTime endTime : Int) : List String :=
  channels.flatMap (fun chID =>
    match env.chanHistory chID startTime endTime with
    | .error _ => []
    | .ok messages => messages.map (fun msg => highlightMentions msg userID))

/-- The fixed summarization prompt preamble of `performSummary`
(verbatim; braces written as hex escapes). -/
def summaryPreamble : String :=
  "Please provide a concise summary of the following Slack messages in Slack\x27s Block Kit JSON format.\n\nExample of the desired format:\n[\n    \x7b\n        \"type\": \"header\",\n        \"text\": \x7b\n            \"type\": \"plain_text\",\n            \"text\": \"Summary of Public Channels\"\n        \x7d\n    \x7d,\n    \x7b\n        \"type\": \"section\",\n        \"text\": \x7b\n            \"type\": \"mrkdwn\",\n            \"text\": \"Here is a summary of the recent conversations.\"\n        \x7d\n    \x7d,\n    \x7b\n        \"type\": \"divider\"\n    \x7d\n]\n\nSlack Messages:\n"

/-- The full summarization prompt: preamble plus one `- message` line per
fetched message. -/
def summaryPrompt (allMessages : List String) : String :=
  summaryPreamble ++ concatAll (allMessages.map (fun msg => "- " ++ msg ++ "\n"))

/-- `performSummary` from `agent.go`: resolve the window, resolve the
channel set, gather messages (skipping failed channels), short-circuit on
an empty message set, otherwise generate and store the summary. -/
def performSummary (env : Env) (store : SummaryStore)
    (userID message channelID : String) : Outcome :=
  let duration := durationNS message
  let endTime := env.now
  let startTime := endTime - duration
  match channelsFor env channelID with
  | .error _ => ⟨channelListFailReply, store, []⟩
  | .ok channelsToSummarize =>
    let allMessages := gatherMessages env userID channelsToSummarize startTime endTime
    if allMessages.length = 0 then
      ⟨noMessagesReply, store, []⟩
    else
      let prompt := summaryPrompt allMessages
      let res := env.gen prompt
      if res.2 then
        ⟨summaryGenFailReply, store, [prompt]⟩
      else
        let cleanSummary := cleanGeminiResponse res.1
        ⟨cleanSummary, setLastSummary store userID channelID cleanSummary, [prompt]⟩

/-! #### findUserMentions (`agent.go`) -/

def msgTokenTypeReply : String :=
  "I can\x27t search for your mentions because I\x27m missing the `search:read` permission or the token type is not allowed. Please ensure I have the `search:read` scope and that your workspace allows bot tokens for search."

def msgMissingScopeReply : String :=
  "I can\x27t search for your mentions because I\x27m missing the `search:read` permission. Please add it to my Slack App configuration."

def searchFailReply : String :=
  "Sorry, I couldn\x27t search for your mentions."

def noMentionsReply : String :=
  "I couldn\x27t find any recent mentions of you."

def mentionsHeader : String :=
  "Here are some recent mentions of you:\n\n"

/-- One rendered mention line, with the target user's own mentions
highlighted. -/
def mentionLine (userID : String) (m : SearchMatch) : String :=
  "- In #" ++ m.channelName ++ ", <@" ++ m.user ++ "> said: \"" ++
    highlightMentions m.text userID ++ "\"\n"

/-- The truncation notice appended when more than 5 matches exist
(`total` is the full match count). -/
def truncNotice (total : Nat) : String :=
  "\n...and " ++ toString (total - 5) ++ " more. Ask me to summarize if you want to know more!"

/-- The rendering loop of `findUserMentions`: render matches with their
running index; once the index reaches 5, emit the truncation notice and
stop. -/
def renderMentions (userID : String) (total : Nat) : Nat → List SearchMatch → String
  | _, [] => ""
  | i, m :: rest =>
    if i ≥ 5 then truncNotice total
    else mentionLine userID m ++ renderMentions userID total (i + 1) rest

/-- `findUserMentions` from `agent.go`: search for `<@userID>`; map the
two recognized permission-error signatures to fixed remediation
messages (checked in source order), any other error to a generic
failure; a `nil`/empty match set to a fixed no-mentions message;
otherwise render at most 5 matches plus a truncation notice. -/
def findUserMentions (searchRes : Except String (List SearchMatch)) (userID : String) :
    String :=
  match searchRes with
  | .error e =>
    if containsSub e "not_allowed_token_type" then msgTokenTypeReply
    else if containsSub e "missing_scope" then msgMissingScopeReply
    else searchFailReply
  | .ok found =>
    if found.length = 0 then noMentionsReply
    else mentionsHeader ++ renderMentions userID found.length 0 found

/-! #### ProcessDM (`agent.go`) -/

/-- The fixed conversational preamble of `ProcessDM` (verbatim; braces
and apostrophes written as hex escapes). -/
def dmPreamble : String :=
  "You are a helpful and friendly conversational AI assistant. Continue the following conversation naturally.\nPlease provide a response in Slack\x27s Block Kit JSON format. The JSON should be a valid array of blocks.\n\nExample of a simple response:\n[\n  \x7b\n    \"type\": \"section\",\n    \"text\": \x7b\n      \"type\": \"mrkdwn\",\n      \"text\": \"This is a simple message.\"\n    \x7d\n  \x7d\n]\n\n"

/-- The CONTEXT block injected when a summary context exists for the
user, exactly as written by `ProcessDM`. -/
def contextSegment (ctx : SummaryContext) : String :=
  "CONTEXT: The user was just shown the following summary. Use this summary to answer any follow-up questions.\n--- SUMMARY START ---\n" ++
    ctx.summary ++
    (if ctx.channelID ≠ "" then "\n(The summary was for channel " ++ ctx.channelID ++ ")" else "") ++
    "\n--- SUMMARY END ---\n\n"

/-- The context portion of the DM prompt: the CONTEXT block when a
summary context is stored for the user, nothing otherwise. -/
def contextPart (store : SummaryStore) (userID : String) : String :=
  match store userID with
  | some ctx => contextSegment ctx
  | none => ""

/-- The conversation-history portion of the DM prompt, exactly as written
by `ProcessDM`: header, one line per stored history entry, the latest
user line, footer, and the assistant cue. -/
def historySegment (history : List String) (latestMessage : String) : String :=
  "--- CONVERSATION HISTORY ---\n" ++
    concatAll (history.map (fun msg => msg ++ "\n")) ++
    ("User: " ++ latestMessage ++ "\n") ++
    "--- END HISTORY ---\n\n" ++
    "Assistant (in JSON format):"

/-- The control-flow skeleton of one `ProcessDM` call: either dispatch to
`performSummary` (summary keywords, with an empty channel ID), dispatch
to `findUserMentions` (mentions keywords), or assemble the conversational
prompt (consuming any stored summary context). -/
inductive DMStep where
  | summaryCall : String → String → String → DMStep
  | mentionsCall : String → DMStep
  | chat : String → SummaryStore → DMStep

/-- The classification and prompt assembly of `ProcessDM`: lower-case the
latest message; summary keywords win first, then mentions keywords;
otherwise build `preamble ++ context ++ history` and consume the stored
summary context (deleted before the generation call). -/
def processDMStep (store : SummaryStore) (userID : String) (history : List String)
    (latestMessage : String) : DMStep :=
  let lowerMessage := lowerStr latestMessage
  if containsSub lowerMessage "summary" || containsSub lowerMessage "summarize" then
    .summaryCall userID latestMessage ""
  else if containsSub lowerMessage "mentions" || containsSub lowerMessage "tagged" ||
      containsSub lowerMessage "missed" then
    .mentionsCall userID
  else
    .chat (dmPreamble ++ contextPart store userID ++ historySegment history latestMessage)
      (consumeSummary store userID)

/-- `ProcessDM` from `agent.go`, with the generation call and the
downstream intents wired in. -/
def processDM (env : Env) (store : SummaryStore) (userID : String)
    (history : List String) (latestMessage : String) : Outcome :=
  match processDMStep store userID history latestMessage with
  | .summaryCall u m c => performSummary env store u m c
  | .mentionsCall u => ⟨findUserMentions env.search u, store, []⟩
  | .chat prompt newStore =>
    let res := env.gen prompt
    ⟨if res.2 then res.1 else cleanGeminiResponse res.1, newStore, [prompt]⟩

/-! #### ProcessMessage (`agent.go`, app-mention events) -/

/-- The direct (non-contextual) mention prompt of `ProcessMessage`
(verbatim; braces and apostrophes written as hex escapes). -/
def mentionPrompt (message : String) : String :=
  "A user mentioned the bot with the following message. Please provide a helpful response in Slack\x27s Block Kit JSON format. The JSON should be a valid array of blocks.\n\nExample of a simple response:\n[\n  \x7b\n    \"type\": \"section\",\n    \"text\": \x7b\n      \"type\": \"mrkdwn\",\n      \"text\": \"This is a simple message.\"\n    \x7d\n  \x7d\n]\n\nUser message: \"" ++ message ++ "\""

/-- The control-flow skeleton of one `ProcessMessage` call: dispatch to
`performSummary` on summary keywords, otherwise the direct prompt. -/
inductive MsgStep where
  | summaryCall : String → String → String → MsgStep
  | direct : String → MsgStep
deriving DecidableEq

/-- Whether a `ProcessMessage` dispatch is the direct (context-free)
path. -/
def MsgStep.isDirect : MsgStep → Bool
  | .direct _ => true
  | _ => false

/-- The dispatch of `ProcessMessage`: mention events still run the
summary-keyword check on the lower-cased text (dispatching to
`performSummary` with the mention's channel) and only otherwise produce
the direct prompt. -/
def processMessageStep (userID channelID message : String) : MsgStep :=
  let lowerMessage := lowerStr message
  if containsSub lowerMessage "summary" || containsSub lowerMessage "summarize" then
    .summaryCall userID message channelID
  else
    .direct (mentionPrompt message)

/-- `ProcessMessage` from `agent.go`, with the generation call and the
summary intent wired in. -/
def processMessage (env : Env) (store : SummaryStore)
    (userID channelID message : String) : Outcome :=
  match processMessageStep userID channelID message with
  | .summaryCall u m c => performSummary env store u m c
  | .direct prompt =>
    let res := env.gen prompt
    ⟨if res.2 then res.1 else cleanGeminiResponse res.1, store, [prompt]⟩

/-! ### Channel-list pagination (`slack.go`, `GetPublicChannels`) -/

/-- The inner loop of `GetPublicChannels`: append the page's channels one
by one, stopping as soon as 30 channels have been collected. -/
def collectChannels : List String → List String → List String
  | acc, [] => acc
  | acc, ch :: rest =>
    if (acc ++ [ch]).length ≥ 30 then acc ++ [ch]
    else collectChannels (acc ++ [ch]) rest

/-- The pagination loop of `GetPublicChannels`: process pages in order,
stopping when 30 channels have been collected or no pages remain (the
empty next-cursor). -/
def pagesLoop : List String → List (List String) → List String
  | acc, [] => acc
  | acc, page :: rest =>
    let acc' := collectChannels acc page
    if acc'.length ≥ 30 then acc' else pagesLoop acc' rest

/-- `GetPublicChannels` over the successive pages returned by
`users.conversations` (the error-free case; a fetch error aborts the
whole listing and is modelled by `Env.publicChannels`). -/
def getPublicChannels (pages : List (List String)) : List String :=
  pagesLoop [] pages

/-! ### Slash-command handler (`slash_command_handler.go`) -/

/-- The parsed slash command fields used by `HandleCommand`. -/
structure SlashCommand where
  command : String
  userID : String
  channelID : String
  text : String
deriving DecidableEq

/-- The observable result of `HandleCommand`: the HTTP status written and
the `(channelID, text)` pair handed to the asynchronous
`processSummaryCommand` goroutine, if any. -/
structure CmdResult where
  status : Nat
  dispatched : Option (String × String)
deriving DecidableEq

/-- `HandleCommand` from `slash_command_handler.go`: construct the
secrets verifier (500 on failure), parse the form body (400 on failure),
verify the signature (401 on failure), then dispatch only `/summary` —
asynchronously, after writing the 200 acknowledgment — and reject any
other command name synchronously with a 400. -/
def handleCommand (verifierSetupOk : Bool) (parseRes : Except Unit SlashCommand)
    (signatureOk : Bool) : CmdResult :=
  if verifierSetupOk = false then ⟨500, none⟩
  else
    match parseRes with
    | .error _ => ⟨400, none⟩
    | .ok s =>
      if signatureOk = false then ⟨401, none⟩
      else if s.command = "/summary" then ⟨200, some (s.channelID, s.text)⟩
      else ⟨400, none⟩

/-! ### The dispatched slash-command work (`processSummaryCommand`)

`HandleCommand` hands `(s.ChannelID, s.Text)` to a goroutine running
`processSummaryCommand`, which parses an optional duration, lists the
bot's channels with `GetPublicChannels`, fetches history from **every**
listed channel (skipping failures), fetches Jira issues, consolidates,
and sends all its messages to the invoking channel. -/

/-- Collaborators of `processSummaryCommand`, as oracles:
`publicChannels` is `slackClient.GetPublicChannels()`, `chanHistory` is
`slackClient.GetConversationHistory`, `jiraIssues` is
`jiraClient.FetchIssues("status=new")`, `consolidate` is
`agent.ConsolidateInfo` (a Processor call whose internal prompt assembly
is a separate operation), and `now` is `time.Now()`. -/
structure CmdEnv where
  publicChannels : Except String (List String)
  chanHistory : String → Int → Int → Except String (List String)
  jiraIssues : Except String (List String)
  consolidate : List String → List String → String
  now : Int

/-- The local `parseDuration` of `slash_command_handler.go`: the anchored
pattern `^(\d+)([dh])` (a leading digit run followed directly by `d` or
`h`; trailing text is ignored), `strconv.Atoi` with its range error, and
`time.Duration(value) * 24 * time.Hour` / `time.Duration(value) *
time.Hour` in wrapping int64 arithmetic.  `none` is the error case. -/
def parseDurationCmd (s : String) : Option Int :=
  let ds := s.data.takeWhile Char.isDigit
  if ds = [] then none
  else
    match s.data.drop ds.length with
    | u :: _ =>
      if u = 'd' ∨ u = 'h' then
        match atoiDigits ds with
        | some v =>
          if u = 'd' then some (mulDur (mulDur (v : Int) 24) (nsPerHour : Int))
          else some (mulDur (v : Int) (nsPerHour : Int))
        | none => none
      else none
    | [] => none

def invalidRangeReply : String :=
  "Error: Invalid time range format. Please use a format like \x2748h\x27 or \x277d\x27. Using default of 24h."

def publicFetchFailReply : String :=
  "Error: Could not fetch public channels."

def jiraFailReply : String :=
  "Error: Could not fetch Jira issues."

/-- The observable effects of one `processSummaryCommand` run: the
channels whose history was requested, and the `SendMessage(channel,
text)` calls in order. -/
structure SlashEffects where
  fetchedChannels : List String
  sends : List (String × String)
deriving DecidableEq

/-- `processSummaryCommand` from `slash_command_handler.go`: trim the
command text; parse a duration from it (warning reply and 24h default on
a parse error); list the bot's channels (fixed failure reply if the
listing fails); fetch every listed channel's history in the window,
skipping per-channel failures; fetch Jira issues (fixed failure reply on
error); consolidate and send the summary — every send goes to the
invoking channel. -/
def processSummaryCommand (env : CmdEnv) (requestChannelID commandText : String) :
    SlashEffects :=
  let trimmed := trimSpace commandText
  let durWarn : Int × Bool :=
    if trimmed = "" then (24 * (nsPerHour : Int), false)
    else
      match parseDurationCmd trimmed with
      | some d => (d, false)
      | none => (24 * (nsPerHour : Int), true)
  let warnSends : List (String × String) :=
    if durWarn.2 then [(requestChannelID, invalidRangeReply)] else []
  let endTime := env.now
  let startTime := endTime - durWarn.1
  match env.publicChannels with
  | .error _ => ⟨[], warnSends ++ [(requestChannelID, publicFetchFailReply)]⟩
  | .ok publicChannels =>
    let allMessages := publicChannels.flatMap (fun chID =>
      match env.chanHistory chID startTime endTime with
      | .error _ => []
      | .ok messages => messages)
    match env.jiraIssues with
    | .error _ => ⟨publicChannels, warnSends ++ [(requestChannelID, jiraFailReply)]⟩
    | .ok jiraIssues =>
      let summary := env.consolidate allMessages jiraIssues
      ⟨publicChannels, warnSends ++ [(requestChannelID, summary)]⟩

/-! ## Theorems -/

theorem containsSub_of_infix {hay pat : String} (h : pat.data <:+: hay.data) :
    containsSub hay pat = true := by
  simp [containsSub, h]

theorem updateHistory_length_le (history : List String) (u r : String)
    (h : history.length ≤ maxHistory) :
    (updateHistory history u r).length ≤ maxHistory := by
  unfold updateHistory
  simp only [List.length_append, List.length_cons, List.length_nil]
  split
  · simp only [List.length_drop, List.length_append, List.length_cons, List.length_nil]
    omega
  · simp only [List.length_append, List.length_cons, List.length_nil] at *
    omega

theorem suffix_append_append {α : Type} {l₁ l₂ t : List α} (h : l₁ <:+ l₂) :
    l₁ ++ t <:+ l₂ ++ t := by
  obtain ⟨p, hp⟩ := h
  exact ⟨p, by rw [← List.append_assoc, hp]⟩

theorem updateHistory_suffix (history : List String) (u r : String) :
    updateHistory history u r <:+
      history ++ ["User: " ++ u, "Assistant: " ++ r] := by
  have hdef : updateHistory history u r =
      if (history ++ ["User: " ++ u] ++ ["Assistant: " ++ r]).length > maxHistory
      then List.drop ((history ++ ["User: " ++ u] ++ ["Assistant: " ++ r]).length - maxHistory)
             (history ++ ["User: " ++ u] ++ ["Assistant: " ++ r])
      else history ++ ["User: " ++ u] ++ ["Assistant: " ++ r] := rfl
  rw [hdef]
  split
  · refine List.IsSuffix.trans (List.drop_suffix _ _) ?_
    rw [List.append_assoc]
    simp
  · rw [List.append_assoc]
    simp

theorem runTurns_aux_length (turns : List (String × String)) (acc : List String)
    (h : acc.length ≤ maxHistory) :
    (turns.foldl (fun h t => updateHistory h t.1 t.2) acc).length ≤ maxHistory := by
  induction turns generalizing acc with
  | nil => simpa using h
  | cons t ts ih =>
    simp only [List.foldl_cons]
    exact ih _ (updateHistory_length_le _ _ _ h)

theorem runTurns_aux_suffix (turns : List (String × String)) (acc L : List String)
    (h : acc <:+ L) :
    turns.foldl (fun h t => updateHistory h t.1 t.2) acc <:+ L ++ turnLines turns := by
  induction turns generalizing acc L with
  | nil => simpa [turnLines] using h
  | cons t ts ih =>
    simp only [List.foldl_cons]
    have h1 : updateHistory acc t.1 t.2 <:+ L ++ ["User: " ++ t.1, "Assistant: " ++ t.2] :=
      List.IsSuffix.trans (updateHistory_suffix acc t.1 t.2) (suffix_append_append h)
    have h2 := ih (updateHistory acc t.1 t.2) (L ++ ["User: " ++ t.1, "Assistant: " ++ t.2]) h1
    have h3 : turnLines (t :: ts) = ["User: " ++ t.1, "Assistant: " ++ t.2] ++ turnLines ts := by
      simp [turnLines]
    rw [h3, ← List.append_assoc]
    exact h2

/-- Claim C1: for every sequence of direct-message turns processed for a
user, the stored conversation history has length at most `maxHistory = 10`
after each update (every prefix of the sequence is itself an instance of
this statement), and the stored entries are a suffix of the full
call-order transcript — i.e. they appear in call order with only the
oldest entries dropped from the front (FIFO truncation). -/
theorem dm_history_bounded_fifo (turns : List (String × String)) :
    (runTurns turns).length ≤ maxHistory ∧ runTurns turns <:+ turnLines turns := by
  constructor
  · exact runTurns_aux_length turns [] (by simp [maxHistory])
  · have h := runTurns_aux_suffix turns [] [] (by exact ⟨[], rfl⟩)
    simpa using h

/-- Claim C4 (refuted by the code — the claim itself states the intended
behavior): `HandleEvent` mutates the shared `conversationHistory` map
from spawned goroutines with no lock, so a DM-turn update is an
unsynchronized read-modify-write.  Starting from 9 existing entries with
bound 10, the schedule in which both turns read before either writes
(read₁, read₂, write₁, write₂) completes both tasks and leaves 10
entries, but the first turn's lines are gone — a lost update — whereas
the sequential schedule (read₁, write₁, read₂, write₂) retains both
turns.  The spec's required atomicity ("no lost update") therefore fails
on the code. -/
theorem dm_history_race_lost_update :
    (let final := raceRun ("q1", "a1") ("q2", "a2")
        ["e1", "e2", "e3", "e4", "e5", "e6", "e7", "e8", "e9"]
        [true, false, true, false]
     final.p1 = TaskPhase.finished ∧ final.p2 = TaskPhase.finished ∧
       final.shared.length = 10 ∧
       "User: q1" ∉ final.shared ∧ "Assistant: a1" ∉ final.shared) ∧
    (let seqFinal := raceRun ("q1", "a1") ("q2", "a2")
        ["e1", "e2", "e3", "e4", "e5", "e6", "e7", "e8", "e9"]
        [true, true, false, false]
     seqFinal.p1 = TaskPhase.finished ∧ seqFinal.p2 = TaskPhase.finished ∧
       seqFinal.shared.length = 10 ∧
       "User: q1" ∈ seqFinal.shared ∧ "Assistant: a1" ∈ seqFinal.shared ∧
       "User: q2" ∈ seqFinal.shared ∧ "Assistant: a2" ∈ seqFinal.shared) := by
  decide

/-! ### String helper lemmas -/

theorem strDataEq {a b : String} (h : a.data = b.data) : a = b := by
  cases a
  cases b
  exact congrArg String.mk h

theorem strAppend_empty (s : String) : s ++ "" = s :=
  strDataEq (by simp [String.data_append])

theorem strInfix_append_left {pat b : String} (a : String) (h : pat.data <:+: b.data) :
    pat.data <:+: (a ++ b).data := by
  rw [String.data_append]
  obtain ⟨s, t, hst⟩ := h
  exact ⟨a.data ++ s, t, by simp [← hst, List.append_assoc]⟩

theorem strInfix_append_right {pat a : String} (b : String) (h : pat.data <:+: a.data) :
    pat.data <:+: (a ++ b).data := by
  rw [String.data_append]
  obtain ⟨s, t, hst⟩ := h
  exact ⟨s, t ++ b.data, by simp [← hst, List.append_assoc]⟩

theorem strInfix_self (s : String) : s.data <:+: s.data :=
  ⟨[], [], by simp⟩

theorem concatAll_cons (p : String) (ps : List String) :
    concatAll (p :: ps) = p ++ concatAll ps :=
  strDataEq (by simp [concatAll, String.data_append])

theorem infix_concatAll {line : String} {pieces : List String} (h : line ∈ pieces) :
    line.data <:+: (concatAll pieces).data := by
  have hm : line.data ∈ pieces.map String.data := List.mem_map_of_mem _ h
  simpa [concatAll] using List.infix_of_mem_flatten hm

/-! ### Claim C9: slash-command contract -/

theorem mem_ite_singleton {α : Type} {x y : α} {c : Prop} [Decidable c]
    (h : x ∈ (if c then [y] else ([] : List α))) : x = y := by
  split at h
  · simpa using h
  · simp at h

/-- Claim C9 counterexample: the claim says the dispatched `/summary`
work is scoped to the invoking channel, but `processSummaryCommand`
fetches history from every channel returned by `GetPublicChannels` —
here `CA` and `CB`, neither of which is the invoking channel `C1` — and
uses the invoking channel only as the destination of its replies. -/
theorem slash_summary_not_channel_scoped :
    (processSummaryCommand
        ⟨.ok ["CA", "CB"], fun _ _ _ => .ok ["m"], .ok [], fun _ _ => "s", 0⟩
        "C1" "").fetchedChannels = ["CA", "CB"] ∧
    "C1" ∉ (processSummaryCommand
        ⟨.ok ["CA", "CB"], fun _ _ _ => .ok ["m"], .ok [], fun _ _ => "s", 0⟩
        "C1" "").fetchedChannels ∧
    (processSummaryCommand
        ⟨.ok ["CA", "CB"], fun _ _ _ => .ok ["m"], .ok [], fun _ _ => "s", 0⟩
        "C1" "").sends = [("C1", "s")] := by
  decide

/-- Claim C9 as amended: a failed signature verification yields a 401
with no dispatch to the Processor; a parsed request with an unsupported
command name is rejected synchronously with a 400; whenever work is
dispatched (asynchronously, after the 200 acknowledgment recorded in the
same result), the command was the one supported name `/summary` with a
verified signature and the dispatched work receives the invoking channel
and the command's free-text argument — but that work is not scoped to
the invoking channel: it fetches history from exactly the channels the
public-channel listing returns, and the invoking channel is only where
every one of its messages is sent. -/
theorem slash_command_contract_and_fanout (env : CmdEnv) (verifierSetupOk : Bool)
    (parseRes : Except Unit SlashCommand) (signatureOk : Bool) :
    (∀ s, parseRes = .ok s → verifierSetupOk = true → signatureOk = false →
       handleCommand verifierSetupOk parseRes signatureOk = ⟨401, none⟩) ∧
    (∀ s, parseRes = .ok s → verifierSetupOk = true → signatureOk = true →
       s.command ≠ "/summary" →
       handleCommand verifierSetupOk parseRes signatureOk = ⟨400, none⟩) ∧
    (∀ d, (handleCommand verifierSetupOk parseRes signatureOk).dispatched = some d →
       (handleCommand verifierSetupOk parseRes signatureOk).status = 200 ∧
       ∃ s, parseRes = .ok s ∧ signatureOk = true ∧ s.command = "/summary" ∧
         d = (s.channelID, s.text)) ∧
    (∀ (reqCh text : String) (chans : List String),
       env.publicChannels = .ok chans →
       (processSummaryCommand env reqCh text).fetchedChannels = chans) ∧
    (∀ (reqCh text : String) (send : String × String),
       send ∈ (processSummaryCommand env reqCh text).sends → send.1 = reqCh) := by
  refine ⟨?_, ?_, ?_, ?_, ?_⟩
  · intro s hs hv hsig
    subst hs hv hsig
    simp [handleCommand]
  · intro s hs hv hsig hcmd
    subst hs hv hsig
    simp [handleCommand, hcmd]
  · intro d hd
    by_cases hv : verifierSetupOk = false
    · simp [handleCommand, hv] at hd
    · cases parseRes with
      | error e => simp [handleCommand, hv] at hd
      | ok s =>
        by_cases hsig : signatureOk = false
        · simp [handleCommand, hv, hsig] at hd
        · by_cases hcmd : s.command = "/summary"
          · have hres : handleCommand verifierSetupOk (.ok s) signatureOk =
                ⟨200, some (s.channelID, s.text)⟩ := by
              simp [handleCommand, hv, hsig, hcmd]
            rw [hres] at hd ⊢
            simp only [Option.some.injEq] at hd
            exact ⟨rfl, s, rfl, by simpa using hsig, hcmd, hd.symm⟩
          · simp [handleCommand, hv, hsig, hcmd] at hd
  · intro reqCh text chans h
    cases hj : env.jiraIssues with
    | error e => simp [processSummaryCommand, h, hj]
    | ok js => simp [processSummaryCommand, h, hj]
  · intro reqCh text send hsend
    simp only [processSummaryCommand] at hsend
    cases hpc : env.publicChannels with
    | error e =>
      rw [hpc] at hsend
      dsimp only at hsend
      rcases List.mem_append.mp hsend with h | h
      · exact congrArg Prod.fst (mem_ite_singleton h)
      · rw [List.mem_singleton] at h
        rw [h]
    | ok chans =>
      rw [hpc] at hsend
      cases hj : env.jiraIssues with
      | error e2 =>
        rw [hj] at hsend
        dsimp only at hsend
        rcases List.mem_append.mp hsend with h | h
        · exact congrArg Prod.fst (mem_ite_singleton h)
        · rw [List.mem_singleton] at h
          rw [h]
      | ok js =>
        rw [hj] at hsend
        dsimp only at hsend
        rcases List.mem_append.mp hsend with h | h
        · exact congrArg Prod.fst (mem_ite_singleton h)
        · rw [List.mem_singleton] at h
          rw [h]

theorem slash_command_contract_and_fanout_witness :
    handleCommand true (.ok ⟨"/summary", "U1", "C1", "3 d"⟩) false = ⟨401, none⟩ ∧
    handleCommand true (.ok ⟨"/other", "U1", "C1", ""⟩) true = ⟨400, none⟩ ∧
    (handleCommand true (.ok ⟨"/summary", "U1", "C1", "3 d"⟩) true).status = 200 ∧
    (processSummaryCommand
        ⟨.ok ["CA", "CB"], fun _ _ _ => .ok ["m"], .ok [], fun _ _ => "s", 0⟩
        "C1" "").fetchedChannels = ["CA", "CB"] := by
  refine ⟨?_, ?_, ?_, ?_⟩
  · exact (slash_command_contract_and_fanout
      ⟨.ok ["CA", "CB"], fun _ _ _ => .ok ["m"], .ok [], fun _ _ => "s", 0⟩
      true (.ok ⟨"/summary", "U1", "C1", "3 d"⟩) false).1
      ⟨"/summary", "U1", "C1", "3 d"⟩ rfl rfl rfl
  · exact (slash_command_contract_and_fanout
      ⟨.ok ["CA", "CB"], fun _ _ _ => .ok ["m"], .ok [], fun _ _ => "s", 0⟩
      true (.ok ⟨"/other", "U1", "C1", ""⟩) true).2.1
      ⟨"/other", "U1", "C1", ""⟩ rfl rfl rfl (by decide)
  · exact ((slash_command_contract_and_fanout
      ⟨.ok ["CA", "CB"], fun _ _ _ => .ok ["m"], .ok [], fun _ _ => "s", 0⟩
      true (.ok ⟨"/summary", "U1", "C1", "3 d"⟩) true).2.2.1
      ("C1", "3 d") (by decide)).1
  · exact (slash_command_contract_and_fanout
      ⟨.ok ["CA", "CB"], fun _ _ _ => .ok ["m"], .ok [], fun _ _ => "s", 0⟩
      true (.ok ⟨"/summary", "U1", "C1", "3 d"⟩) true).2.2.2.1
      "C1" "" ["CA", "CB"] rfl

/-! ### Claim C3: mention events and classification -/

/-- Claim C3 counterexample: the claim says mention events never run
intent classification and always produce a direct answer, but
`ProcessMessage` checks the summary keywords and, for the text
`"summary"`, dispatches `performSummary` (which consults channel history
and writes the summary store) instead of producing the direct prompt. -/
theorem mention_event_runs_classification :
    processMessageStep "U1" "C1" "summary" =
      MsgStep.summaryCall "U1" "summary" "C1" ∧
    (processMessageStep "U1" "C1" "summary").isDirect = false := by
  decide

/-- Claim C3 as amended: a mention event runs only the summary-keyword
check; whenever the text contains neither "summary" nor "summarize"
(case-insensitively), `ProcessMessage` produces the direct, context-free
answer: the prompt is a function of the message text alone, the summary
store is left untouched and never influences the reply (conversational
history is not even an input of `ProcessMessage`). -/
theorem mention_event_direct_when_no_summary_keyword (env : Env)
    (store store' : SummaryStore) (u c m : String)
    (h1 : containsSub (lowerStr m) "summary" = false)
    (h2 : containsSub (lowerStr m) "summarize" = false) :
    processMessageStep u c m = .direct (mentionPrompt m) ∧
    (processMessage env store u c m).store = store ∧
    (processMessage env store u c m).reply = (processMessage env store' u c m).reply ∧
    (processMessage env store u c m).genCalls = [mentionPrompt m] := by
  have hstep : processMessageStep u c m = .direct (mentionPrompt m) := by
    simp [processMessageStep, h1, h2]
  refine ⟨hstep, ?_, ?_, ?_⟩ <;> simp [processMessage, hstep]

theorem mention_event_direct_witness :
    processMessageStep "U1" "C1" "hello there" = .direct (mentionPrompt "hello there") :=
  (mention_event_direct_when_no_summary_keyword
    ⟨fun p => (p, false), .ok [], fun _ _ _ => .ok [], .ok [], 0⟩
    (fun _ => none) (fun _ => none) "U1" "C1" "hello there"
    (by decide) (by decide)).1

/-! ### Conversational-path lemmas for ProcessDM -/

theorem processDMStep_conversational (store : SummaryStore) (u : String)
    (history : List String) (m : String)
    (h1 : containsSub (lowerStr m) "summary" = false)
    (h2 : containsSub (lowerStr m) "summarize" = false)
    (h3 : containsSub (lowerStr m) "mentions" = false)
    (h4 : containsSub (lowerStr m) "tagged" = false)
    (h5 : containsSub (lowerStr m) "missed" = false) :
    processDMStep store u history m =
      .chat (dmPreamble ++ contextPart store u ++ historySegment history m)
        (consumeSummary store u) := by
  simp [processDMStep, h1, h2, h3, h4, h5]

theorem processDM_conversational (env : Env) (store : SummaryStore) (u : String)
    (history : List String) (m : String)
    (h1 : containsSub (lowerStr m) "summary" = false)
    (h2 : containsSub (lowerStr m) "summarize" = false)
    (h3 : containsSub (lowerStr m) "mentions" = false)
    (h4 : containsSub (lowerStr m) "tagged" = false)
    (h5 : containsSub (lowerStr m) "missed" = false) :
    processDM env store u history m =
      ⟨if (env.gen (dmPreamble ++ contextPart store u ++ historySegment history m)).2
        then (env.gen (dmPreamble ++ contextPart store u ++ historySegment history m)).1
        else cleanGeminiResponse
          (env.gen (dmPreamble ++ contextPart store u ++ historySegment history m)).1,
       consumeSummary store u,
       [dmPreamble ++ contextPart store u ++ historySegment history m]⟩ := by
  rw [processDM, processDMStep_conversational store u history m h1 h2 h3 h4 h5]

theorem infix_historySegment {line : String} {history : List String} (m : String)
    (h : line ∈ history) : line.data <:+: (historySegment history m).data := by
  have h1 : (line ++ "\n") ∈ history.map (fun msg => msg ++ "\n") :=
    List.mem_map_of_mem _ h
  have h2 : line.data <:+: (line ++ "\n").data :=
    ⟨[], "\n".data, by simp [String.data_append]⟩
  have h3 : line.data <:+: (concatAll (history.map (fun msg => msg ++ "\n"))).data :=
    List.IsInfix.trans h2 (infix_concatAll h1)
  unfold historySegment
  exact strInfix_append_right _ (strInfix_append_right _ (strInfix_append_right _
    (strInfix_append_left _ h3)))

/-! ### Claim C5: direct-message classification -/

/-- Claim C5: direct-message classification is first-match-wins on
case-insensitive substrings.  Any text whose lower-cased form contains
"summary" or "summarize" dispatches the Summary Intent regardless of
other content; text containing none of the summary or mentions keywords
takes the Conversational Intent, and the single assembled generation
prompt contains every line of the prior bounded history. -/
theorem dm_classification (env : Env) (store : SummaryStore) (u : String)
    (history : List String) (m : String) :
    (containsSub (lowerStr m) "summary" = true ∨
        containsSub (lowerStr m) "summarize" = true →
      processDMStep store u history m = .summaryCall u m "") ∧
    (containsSub (lowerStr m) "summary" = false →
      containsSub (lowerStr m) "summarize" = false →
      containsSub (lowerStr m) "mentions" = false →
      containsSub (lowerStr m) "tagged" = false →
      containsSub (lowerStr m) "missed" = false →
      ∃ prompt, (processDM env store u history m).genCalls = [prompt] ∧
        ∀ line ∈ history, containsSub prompt line = true) := by
  constructor
  · intro h
    rcases h with h | h <;> simp [processDMStep, h]
  · intro h1 h2 h3 h4 h5
    refine ⟨dmPreamble ++ contextPart store u ++ historySegment history m, ?_, ?_⟩
    · rw [processDM_conversational env store u history m h1 h2 h3 h4 h5]
    · intro line hline
      exact containsSub_of_infix
        (strInfix_append_left _ (infix_historySegment m hline))

theorem dm_classification_witness :
    processDMStep (fun _ => none) "U1" [] "Can I get a SUMMARY of today, please?" =
      .summaryCall "U1" "Can I get a SUMMARY of today, please?" "" ∧
    ∃ prompt,
      (processDM ⟨fun p => (p, false), .ok [], fun _ _ _ => .ok [], .ok [], 0⟩
          (fun _ => none) "U1" ["User: hey", "Assistant: hi"] "how are you?").genCalls =
        [prompt] ∧
      ∀ line ∈ (["User: hey", "Assistant: hi"] : List String),
        containsSub prompt line = true := by
  constructor
  · exact (dm_classification ⟨fun p => (p, false), .ok [], fun _ _ _ => .ok [], .ok [], 0⟩
      (fun _ => none) "U1" [] "Can I get a SUMMARY of today, please?").1
      (Or.inl (by decide))
  · exact (dm_classification ⟨fun p => (p, false), .ok [], fun _ _ _ => .ok [], .ok [], 0⟩
      (fun _ => none) "U1" ["User: hey", "Assistant: hi"] "how are you?").2
      (by decide) (by decide) (by decide) (by decide) (by decide)

/-! ### Summary-context store lemmas -/

theorem setLastSummary_self (store : SummaryStore) (u cCh cSum : String) :
    setLastSummary store u cCh cSum u = some ⟨cSum, cCh⟩ := by
  simp [setLastSummary]

theorem consumeSummary_self_none {store : SummaryStore} {u : String} {ctx : SummaryContext}
    (h : store u = some ctx) : consumeSummary store u u = none := by
  simp [consumeSummary, h, deleteSummary]

theorem contextPart_of_some {store : SummaryStore} {u : String} {ctx : SummaryContext}
    (h : store u = some ctx) : contextPart store u = contextSegment ctx := by
  simp [contextPart, h]

theorem contextPart_of_none {store : SummaryStore} {u : String}
    (h : store u = none) : contextPart store u = "" := by
  simp [contextPart, h]

theorem contextSegment_has_marker (ctx : SummaryContext) :
    containsSub (contextSegment ctx)
      "CONTEXT: The user was just shown the following summary." = true := by
  apply containsSub_of_infix
  unfold contextSegment
  apply strInfix_append_right
  apply strInfix_append_right
  apply strInfix_append_right
  exact ⟨[], (" Use this summary to answer any follow-up questions.\n--- SUMMARY START ---\n").data,
    by decide⟩

theorem contextSegment_has_summary (ctx : SummaryContext) :
    containsSub (contextSegment ctx) ctx.summary = true := by
  apply containsSub_of_infix
  unfold contextSegment
  apply strInfix_append_right
  apply strInfix_append_right
  exact strInfix_append_left _ (strInfix_self ctx.summary)

/-! ### Claim C2: summary context is injected and consumed exactly once -/

/-- Claim C2: after `SetLastSummary` stores a summary context for a user,
the next conversational DM turn for that user sends a single generation
prompt that contains the CONTEXT marker and the stored summary text, and
removes the context; an immediately following read for the same user
finds it absent, and a further conversational turn assembles its prompt
with no CONTEXT block (preamble and history only) — the stored value is
returned exactly once and never read twice. -/
theorem summary_context_consumed_once (env : Env) (store : SummaryStore)
    (u cSum cCh : String) (history h2 : List String) (m m2 : String)
    (hm1 : containsSub (lowerStr m) "summary" = false)
    (hm2 : containsSub (lowerStr m) "summarize" = false)
    (hm3 : containsSub (lowerStr m) "mentions" = false)
    (hm4 : containsSub (lowerStr m) "tagged" = false)
    (hm5 : containsSub (lowerStr m) "missed" = false)
    (hn1 : containsSub (lowerStr m2) "summary" = false)
    (hn2 : containsSub (lowerStr m2) "summarize" = false)
    (hn3 : containsSub (lowerStr m2) "mentions" = false)
    (hn4 : containsSub (lowerStr m2) "tagged" = false)
    (hn5 : containsSub (lowerStr m2) "missed" = false) :
    (∃ prompt,
      (processDM env (setLastSummary store u cCh cSum) u history m).genCalls = [prompt] ∧
      containsSub prompt "CONTEXT: The user was just shown the following summary." = true ∧
      containsSub prompt cSum = true) ∧
    (processDM env (setLastSummary store u cCh cSum) u history m).store u = none ∧
    (processDM env (processDM env (setLastSummary store u cCh cSum) u history m).store
        u h2 m2).genCalls = [dmPreamble ++ historySegment h2 m2] := by
  have hs1 : setLastSummary store u cCh cSum u = some ⟨cSum, cCh⟩ :=
    setLastSummary_self store u cCh cSum
  have hout := processDM_conversational env (setLastSummary store u cCh cSum) u history m
    hm1 hm2 hm3 hm4 hm5
  have hctx : contextPart (setLastSummary store u cCh cSum) u =
      contextSegment ⟨cSum, cCh⟩ := contextPart_of_some hs1
  refine ⟨⟨dmPreamble ++ contextPart (setLastSummary store u cCh cSum) u ++
      historySegment history m, ?_, ?_, ?_⟩, ?_, ?_⟩
  · rw [hout]
  · rw [hctx]
    have h := contextSegment_has_marker ⟨cSum, cCh⟩
    simp only [containsSub, decide_eq_true_eq] at h ⊢
    exact strInfix_append_right _ (strInfix_append_left _ h)
  · rw [hctx]
    have h := contextSegment_has_summary ⟨cSum, cCh⟩
    simp only [containsSub, decide_eq_true_eq] at h ⊢
    exact strInfix_append_right _ (strInfix_append_left _ h)
  · rw [hout]
    exact consumeSummary_self_none hs1
  · rw [hout]
    have hnone : consumeSummary (setLastSummary store u cCh cSum) u u = none :=
      consumeSummary_self_none hs1
    rw [processDM_conversational env _ u h2 m2 hn1 hn2 hn3 hn4 hn5,
      contextPart_of_none hnone, strAppend_empty]

theorem summary_context_consumed_once_witness :
    (processDM ⟨fun p => (p, false), .ok [], fun _ _ _ => .ok [], .ok [], 0⟩
        (setLastSummary (fun _ => none) "U1" "C7" "the summary text")
        "U1" ["User: a"] "tell me more").store "U1" = none :=
  (summary_context_consumed_once
    ⟨fun p => (p, false), .ok [], fun _ _ _ => .ok [], .ok [], 0⟩
    (fun _ => none) "U1" "the summary text" "C7" ["User: a"] [] "tell me more" "ok thanks"
    (by decide) (by decide) (by decide) (by decide) (by decide)
    (by decide) (by decide) (by decide) (by decide) (by decide)).2.1

/-! ### Claim C10: context consumed even when generation fails -/

/-- Claim C10: on a conversational DM turn with a stored summary context,
the context is removed from the store before the generation client is
invoked: the resulting store does not depend on the generation oracle at
all (so the context is consumed even when the generation call fails), the
post-turn read finds it absent, and a retried conversational turn
assembles its prompt with no CONTEXT block. -/
theorem summary_context_removed_before_generation (env : Env)
    (g' : String → String × Bool) (store : SummaryStore) (u : String)
    (ctx : SummaryContext) (history h2 : List String) (m m2 : String)
    (hstore : store u = some ctx)
    (hm1 : containsSub (lowerStr m) "summary" = false)
    (hm2 : containsSub (lowerStr m) "summarize" = false)
    (hm3 : containsSub (lowerStr m) "mentions" = false)
    (hm4 : containsSub (lowerStr m) "tagged" = false)
    (hm5 : containsSub (lowerStr m) "missed" = false)
    (hn1 : containsSub (lowerStr m2) "summary" = false)
    (hn2 : containsSub (lowerStr m2) "summarize" = false)
    (hn3 : containsSub (lowerStr m2) "mentions" = false)
    (hn4 : containsSub (lowerStr m2) "tagged" = false)
    (hn5 : containsSub (lowerStr m2) "missed" = false) :
    (processDM env store u history m).store u = none ∧
    (processDM (envWithGen env g') store u history m).store =
      (processDM env store u history m).store ∧
    (processDM env (processDM env store u history m).store u h2 m2).genCalls =
      [dmPreamble ++ historySegment h2 m2] := by
  have hout := processDM_conversational env store u history m hm1 hm2 hm3 hm4 hm5
  have hout' := processDM_conversational (envWithGen env g') store u history m
    hm1 hm2 hm3 hm4 hm5
  refine ⟨?_, ?_, ?_⟩
  · rw [hout]
    exact consumeSummary_self_none hstore
  · rw [hout, hout']
  · rw [hout]
    have hnone : consumeSummary store u u = none := consumeSummary_self_none hstore
    rw [processDM_conversational env _ u h2 m2 hn1 hn2 hn3 hn4 hn5,
      contextPart_of_none hnone, strAppend_empty]

theorem summary_context_removed_before_generation_witness :
    (processDM ⟨fun p => (p, false), .ok [], fun _ _ _ => .ok [], .ok [], 0⟩
        (fun id => if id = "U1" then some ⟨"s", "C"⟩ else none)
        "U1" [] "tell me more").store "U1" = none ∧
    (processDM (envWithGen ⟨fun p => (p, false), .ok [], fun _ _ _ => .ok [], .ok [], 0⟩
        (fun _ => ("Sorry, I had trouble generating a response.", true)))
        (fun id => if id = "U1" then some ⟨"s", "C"⟩ else none)
        "U1" [] "tell me more").store =
      (processDM ⟨fun p => (p, false), .ok [], fun _ _ _ => .ok [], .ok [], 0⟩
        (fun id => if id = "U1" then some ⟨"s", "C"⟩ else none)
        "U1" [] "tell me more").store := by
  have h := summary_context_removed_before_generation
    ⟨fun p => (p, false), .ok [], fun _ _ _ => .ok [], .ok [], 0⟩
    (fun _ => ("Sorry, I had trouble generating a response.", true))
    (fun id => if id = "U1" then some ⟨"s", "C"⟩ else none)
    "U1" ⟨"s", "C"⟩ [] [] "tell me more" "ok thanks"
    rfl
    (by decide) (by decide) (by decide) (by decide) (by decide)
    (by decide) (by decide) (by decide) (by decide) (by decide)
  exact ⟨h.1, h.2.1⟩

/-! ### Claim C6: summary window and empty-set short-circuit -/

/-- Claim C6: the DM text "summarize last 3 d" resolves the summary window
duration to 72 hours; the default 24 hours is kept both when the
`(\\d+)\\s*d` pattern is absent and when it is unparsable — a captured
digit run exceeding Go's 64-bit `int` makes `strconv.Atoi` fail its
`err == nil` guard (shown universally and at a concrete 20-digit input;
a parsable but huge day count instead wraps int64, shown going negative);
and whenever the gathered message set for the resolved channels is empty,
`performSummary` returns the fixed no-messages reply verbatim, sends no
prompt to the generation client, and does not store a summary context. -/
theorem summary_window_and_empty_shortcircuit :
    durationNS "summarize last 3 d" = 72 * (nsPerHour : Int) ∧
    (∀ m : String, findDaysCapture m.data = none →
       durationNS m = 24 * (nsPerHour : Int)) ∧
    (∀ (m : String) (ds : List Char), findDaysCapture m.data = some ds →
       int64Max < digitsToNat ds → durationNS m = 24 * (nsPerHour : Int)) ∧
    durationNS "summarize last 99999999999999999999 d" = 24 * (nsPerHour : Int) ∧
    durationNS "summarize last 200000 d" < 0 ∧
    ∀ (env : Env) (store : SummaryStore) (u m c : String) (chans : List String),
      channelsFor env c = .ok chans →
      gatherMessages env u chans (env.now - durationNS m) env.now = [] →
      performSummary env store u m c = ⟨noMessagesReply, store, []⟩ := by
  refine ⟨by decide, ?_, ?_, by decide, by decide, ?_⟩
  · intro m h
    simp [durationNS, h]
  · intro m ds h hbig
    have hno : ¬ (digitsToNat ds ≤ int64Max) := by omega
    simp [durationNS, h, atoiDigits, hno]
  · intro env store u m c chans h1 h2
    simp [performSummary, h1, h2]

theorem summary_empty_shortcircuit_witness :
    durationNS "hello" = 24 * (nsPerHour : Int) ∧
    durationNS "summarize last 99999999999999999999 d" = 24 * (nsPerHour : Int) ∧
    performSummary ⟨fun p => (p, false), .ok [], fun _ _ _ => .ok [], .ok [], 0⟩
        (fun _ => none) "U1" "summarize last 3 d" "C9" =
      ⟨noMessagesReply, (fun _ => none), []⟩ := by
  refine ⟨?_, ?_, ?_⟩
  · exact summary_window_and_empty_shortcircuit.2.1 "hello" rfl
  · exact summary_window_and_empty_shortcircuit.2.2.1
      "summarize last 99999999999999999999 d" ("99999999999999999999".data) rfl (by decide)
  · exact summary_window_and_empty_shortcircuit.2.2.2.2.2
      ⟨fun p => (p, false), .ok [], fun _ _ _ => .ok [], .ok [], 0⟩
      (fun _ => none) "U1" "summarize last 3 d" "C9" ["C9"] rfl rfl

/-! ### Claim C7: fan-out error handling and the 30-channel cap -/

theorem collectChannels_eq (page : List String) :
    ∀ acc : List String, acc.length < 30 →
    collectChannels acc page = (acc ++ page).take 30 := by
  induction page with
  | nil =>
    intro acc h
    simp [collectChannels, List.take_of_length_le (le_of_lt h)]
  | cons ch rest ih =>
    intro acc h
    simp only [collectChannels]
    by_cases h30 : (acc ++ [ch]).length ≥ 30
    · rw [if_pos h30]
      have hlen : (acc ++ [ch]).length = 30 := by
        simp only [List.length_append, List.length_cons, List.length_nil] at h30 ⊢
        omega
      rw [show acc ++ ch :: rest = (acc ++ [ch]) ++ rest by simp]
      rw [List.take_append_of_le_length (by omega)]
      exact (List.take_of_length_le (by omega)).symm
    · rw [if_neg h30]
      have hlt : (acc ++ [ch]).length < 30 := by omega
      rw [ih (acc ++ [ch]) hlt, show acc ++ ch :: rest = (acc ++ [ch]) ++ rest by simp]

theorem pagesLoop_eq (pages : List (List String)) :
    ∀ acc : List String, acc.length < 30 →
    pagesLoop acc pages = (acc ++ pages.flatten).take 30 := by
  induction pages with
  | nil =>
    intro acc h
    simp [pagesLoop, List.take_of_length_le (le_of_lt h)]
  | cons page rest ih =>
    intro acc h
    simp only [pagesLoop]
    have hc := collectChannels_eq page acc h
    by_cases h30 : (collectChannels acc page).length ≥ 30
    · rw [if_pos h30, hc]
      rw [hc, List.length_take] at h30
      have hlen : 30 ≤ (acc ++ page).length := by omega
      rw [List.flatten_cons,
        show acc ++ (page ++ rest.flatten) = (acc ++ page) ++ rest.flatten by
          simp [List.append_assoc]]
      exact (List.take_append_of_le_length hlen).symm
    · rw [if_neg h30]
      rw [hc, List.length_take] at h30
      have hlen : (acc ++ page).length < 30 := by omega
      have hcc : collectChannels acc page = acc ++ page := by
        rw [hc]
        exact List.take_of_length_le (le_of_lt hlen)
      rw [hcc, ih (acc ++ page) hlen, List.flatten_cons,
        show acc ++ (page ++ rest.flatten) = (acc ++ page) ++ rest.flatten by
          simp [List.append_assoc]]

theorem getPublicChannels_cap (pages : List (List String)) :
    getPublicChannels pages = pages.flatten.take 30 := by
  have h := pagesLoop_eq pages [] (by simp)
  simpa [getPublicChannels] using h

/-- Claim C7: during a summary fan-out, a per-channel history-fetch
failure only removes that channel's contribution — the remaining channels
are processed as if the failing channel were absent; the total-failure
reply arises exactly from a failed channel-list fetch (when the list
fetch succeeds the outcome is either the empty-set short-circuit or a
generation call on the partial results); and channel discovery returns
exactly the first 30 channels across the fetched pages (pagination up to
the cap or the last page). -/
theorem summary_fanout_partial_results :
    (∀ (env : Env) (u : String) (pre post : List String) (c : String) (a b : Int)
        (e : String), env.chanHistory c a b = .error e →
       gatherMessages env u (pre ++ c :: post) a b =
         gatherMessages env u (pre ++ post) a b) ∧
    (∀ (env : Env) (store : SummaryStore) (u m e : String),
       env.publicChannels = .error e →
       performSummary env store u m "" = ⟨channelListFailReply, store, []⟩) ∧
    (∀ (env : Env) (store : SummaryStore) (u m : String) (chans : List String),
       env.publicChannels = .ok chans →
       (gatherMessages env u chans (env.now - durationNS m) env.now = [] ∧
          performSummary env store u m "" = ⟨noMessagesReply, store, []⟩) ∨
       (gatherMessages env u chans (env.now - durationNS m) env.now ≠ [] ∧
          (performSummary env store u m "").genCalls =
            [summaryPrompt
              (gatherMessages env u chans (env.now - durationNS m) env.now)])) ∧
    (∀ pages : List (List String), getPublicChannels pages = pages.flatten.take 30) := by
  refine ⟨?_, ?_, ?_, getPublicChannels_cap⟩
  · intro env u pre post c a b e h
    simp [gatherMessages, h]
  · intro env store u m e h
    simp [performSummary, channelsFor, h]
  · intro env store u m chans h
    by_cases hg : gatherMessages env u chans (env.now - durationNS m) env.now = []
    · left
      refine ⟨hg, ?_⟩
      simp [performSummary, channelsFor, h, hg]
    · right
      refine ⟨hg, ?_⟩
      have hlen : (gatherMessages env u chans
          (env.now - durationNS m) env.now).length ≠ 0 := by
        simpa [List.length_eq_zero] using hg
      simp only [performSummary, channelsFor, if_neg, h]
      simp only [show ("" ≠ "") = False by simp, if_false]
      rw [if_neg hlen]
      split <;> rfl

theorem summary_fanout_partial_results_witness :
    gatherMessages
        ⟨fun p => (p, false), .ok [],
          fun ch _ _ => if ch = "BAD" then .error "boom" else .ok ["hello"],
          .ok [], 0⟩
        "U1" (["A"] ++ "BAD" :: ["B"]) 0 0 =
      gatherMessages
        ⟨fun p => (p, false), .ok [],
          fun ch _ _ => if ch = "BAD" then .error "boom" else .ok ["hello"],
          .ok [], 0⟩
        "U1" (["A"] ++ ["B"]) 0 0 ∧
    performSummary ⟨fun p => (p, false), .error "fail", fun _ _ _ => .ok [], .ok [], 0⟩
        (fun _ => none) "U1" "summarize" "" =
      ⟨channelListFailReply, (fun _ => none), []⟩ ∧
    ((gatherMessages ⟨fun p => (p, false), .ok ["C1"], fun _ _ _ => .ok ["hola"], .ok [], 0⟩
          "U1" ["C1"] ((0 : Int) - durationNS "summarize") 0 = [] ∧
        performSummary ⟨fun p => (p, false), .ok ["C1"], fun _ _ _ => .ok ["hola"], .ok [], 0⟩
          (fun _ => none) "U1" "summarize" "" =
          ⟨noMessagesReply, (fun _ => none), []⟩) ∨
      (gatherMessages ⟨fun p => (p, false), .ok ["C1"], fun _ _ _ => .ok ["hola"], .ok [], 0⟩
          "U1" ["C1"] ((0 : Int) - durationNS "summarize") 0 ≠ [] ∧
        (performSummary ⟨fun p => (p, false), .ok ["C1"], fun _ _ _ => .ok ["hola"], .ok [], 0⟩
            (fun _ => none) "U1" "summarize" "").genCalls =
          [summaryPrompt
            (gatherMessages ⟨fun p => (p, false), .ok ["C1"], fun _ _ _ => .ok ["hola"], .ok [], 0⟩
              "U1" ["C1"] ((0 : Int) - durationNS "summarize") 0)])) := by
  refine ⟨?_, ?_, ?_⟩
  · exact summary_fanout_partial_results.1
      ⟨fun p => (p, false), .ok [],
        fun ch _ _ => if ch = "BAD" then .error "boom" else .ok ["hello"],
        .ok [], 0⟩
      "U1" ["A"] ["B"] "BAD" 0 0 "boom" rfl
  · exact summary_fanout_partial_results.2.1
      ⟨fun p => (p, false), .error "fail", fun _ _ _ => .ok [], .ok [], 0⟩
      (fun _ => none) "U1" "summarize" "fail" rfl
  · exact summary_fanout_partial_results.2.2.1
      ⟨fun p => (p, false), .ok ["C1"], fun _ _ _ => .ok ["hola"], .ok [], 0⟩
      (fun _ => none) "U1" "summarize" ["C1"] rfl

/-! ### Claim C8: mentions intent error handling and rendering -/

theorem strEmpty_append (s : String) : "" ++ s = s :=
  strDataEq (by rw [String.data_append]; rfl)

theorem strAppend_assoc (a b c : String) : a ++ b ++ c = a ++ (b ++ c) :=
  strDataEq (by simp [String.data_append, List.append_assoc])

theorem renderMentions_eq (u : String) (total : Nat) :
    ∀ (ms : List SearchMatch) (i : Nat), i ≤ 5 →
    renderMentions u total i ms =
      concatAll ((ms.take (5 - i)).map (mentionLine u)) ++
        (if 5 - i < ms.length then truncNotice total else "") := by
  intro ms
  induction ms with
  | nil =>
    intro i h
    rw [renderMentions]
    rw [if_neg (by simp)]
    rw [show concatAll (([] : List SearchMatch).take (5 - i) |>.map (mentionLine u)) = "" by
      simp [concatAll]]
    rw [strEmpty_append]
  | cons m rest ih =>
    intro i h
    by_cases h5 : i ≥ 5
    · have hi : i = 5 := by omega
      subst hi
      rw [renderMentions, if_pos h5]
      rw [show (5 : Nat) - 5 = 0 from rfl, List.take_zero]
      rw [if_pos (by simp)]
      rw [show concatAll (List.map (mentionLine u) []) = "" by simp [concatAll]]
      rw [strEmpty_append]
    · rw [renderMentions, if_neg h5]
      rw [ih (i + 1) (by omega)]
      have htake : (m :: rest).take (5 - i) = m :: rest.take (5 - (i + 1)) := by
        rw [show 5 - i = (5 - (i + 1)) + 1 by omega]
        rfl
      rw [htake, List.map_cons, concatAll_cons]
      have hcond : (if 5 - i < (m :: rest).length then truncNotice total else "") =
          (if 5 - (i + 1) < rest.length then truncNotice total else "") := by
        by_cases hc : 5 - (i + 1) < rest.length
        · rw [if_pos hc, if_pos (by simp only [List.length_cons]; omega)]
        · rw [if_neg hc, if_neg (by simp only [List.length_cons]; omega)]
      rw [hcond, strAppend_assoc]

/-- Claim C8: for the Mentions Intent, a search error containing the
`not_allowed_token_type` signature yields its fixed remediation message;
otherwise one containing `missing_scope` yields the second fixed
remediation message; any other search error yields the generic failure
message; an empty match set yields the fixed no-mentions message; at most
5 matches are rendered (each line highlighting the target user's own
mentions), and when more than 5 matches exist exactly the first 5 are
rendered followed by a truncation notice carrying the remaining count. -/
theorem mentions_intent_rendering :
    (∀ e u, containsSub e "not_allowed_token_type" = true →
       findUserMentions (.error e) u = msgTokenTypeReply) ∧
    (∀ e u, containsSub e "not_allowed_token_type" = false →
       containsSub e "missing_scope" = true →
       findUserMentions (.error e) u = msgMissingScopeReply) ∧
    (∀ e u, containsSub e "not_allowed_token_type" = false →
       containsSub e "missing_scope" = false →
       findUserMentions (.error e) u = searchFailReply) ∧
    (∀ u, findUserMentions (.ok []) u = noMentionsReply) ∧
    (∀ u (ms : List SearchMatch), ms ≠ [] → ms.length ≤ 5 →
       findUserMentions (.ok ms) u =
         mentionsHeader ++ concatAll (ms.map (mentionLine u))) ∧
    (∀ u (ms : List SearchMatch), 5 < ms.length →
       findUserMentions (.ok ms) u =
         mentionsHeader ++ (concatAll ((ms.take 5).map (mentionLine u)) ++
           truncNotice ms.length)) := by
  refine ⟨?_, ?_, ?_, ?_, ?_, ?_⟩
  · intro e u h
    simp [findUserMentions, h]
  · intro e u h1 h2
    simp [findUserMentions, h1, h2]
  · intro e u h1 h2
    simp [findUserMentions, h1, h2]
  · intro u
    simp [findUserMentions]
  · intro u ms hne hlen
    have hlz : ms.length ≠ 0 := by simpa [List.length_eq_zero] using hne
    rw [findUserMentions, if_neg hlz]
    rw [renderMentions_eq u ms.length ms 0 (by omega)]
    rw [show (5 : Nat) - 0 = 5 from rfl]
    rw [List.take_of_length_le hlen, if_neg (by omega), strAppend_empty]
  · intro u ms hlen
    have hlz : ms.length ≠ 0 := by omega
    rw [findUserMentions, if_neg hlz]
    rw [renderMentions_eq u ms.length ms 0 (by omega)]
    rw [show (5 : Nat) - 0 = 5 from rfl, if_pos (by omega)]

theorem mentions_intent_rendering_witness :
    findUserMentions (.error "slack error: not_allowed_token_type") "U1" =
      msgTokenTypeReply ∧
    findUserMentions (.error "slack error: missing_scope") "U1" =
      msgMissingScopeReply ∧
    findUserMentions (.error "network timeout") "U1" = searchFailReply ∧
    findUserMentions (.ok []) "U1" = noMentionsReply ∧
    findUserMentions (.ok [⟨"hi <@U1> there", "general", "U2"⟩]) "U1" =
      mentionsHeader ++
        concatAll ([⟨"hi <@U1> there", "general", "U2"⟩].map (mentionLine "U1")) ∧
    findUserMentions
        (.ok [⟨"a", "c1", "u"⟩, ⟨"b", "c2", "u"⟩, ⟨"c", "c3", "u"⟩, ⟨"d", "c4", "u"⟩,
          ⟨"e", "c5", "u"⟩, ⟨"f", "c6", "u"⟩]) "U1" =
      mentionsHeader ++
        (concatAll (([⟨"a", "c1", "u"⟩, ⟨"b", "c2", "u"⟩, ⟨"c", "c3", "u"⟩, ⟨"d", "c4", "u"⟩,
            ⟨"e", "c5", "u"⟩, ⟨"f", "c6", "u"⟩] : List SearchMatch).take 5 |>.map
              (mentionLine "U1")) ++
          truncNotice 6) := by
  refine ⟨?_, ?_, ?_, ?_, ?_, ?_⟩
  · exact mentions_intent_rendering.1 "slack error: not_allowed_token_type" "U1" (by decide)
  · exact mentions_intent_rendering.2.1 "slack error: missing_scope" "U1"
      (by decide) (by decide)
  · exact mentions_intent_rendering.2.2.1 "network timeout" "U1" (by decide) (by decide)
  · exact mentions_intent_rendering.2.2.2.1 "U1"
  · exact mentions_intent_rendering.2.2.2.2.1 "U1" [⟨"hi <@U1> there", "general", "U2"⟩]
      (by decide) (by decide)
  · exact mentions_intent_rendering.2.2.2.2.2 "U1"
      [⟨"a", "c1", "u"⟩, ⟨"b", "c2", "u"⟩, ⟨"c", "c3", "u"⟩, ⟨"d", "c4", "u"⟩,
        ⟨"e", "c5", "u"⟩, ⟨"f", "c6", "u"⟩] (by decide)

end GoComm
